import Mathlib

/-!
Shallow embedding of the memory-matching card game core
(`src/main.ts` together with the enums and config type of `src/types.ts`).

Modelling conventions:
* JS numbers holding the attempt budget are modelled as `Int` (the code can
  drive `attemptsLeft` below zero); the pair count and card ids are `Nat`.
* `Math.random()` is modelled by an explicit draw function `rnd : Nat → Nat`;
  the draw used at loop index `i` is `rnd i % (i + 1)`, which ranges over
  exactly the values `Math.floor(Math.random() * (i + 1))` can take.
* Exceptions (`throw new GameError msg`) are modelled with `Except String`,
  carrying the thrown message; the single `GameError` class means the message
  is the whole observable error content.
* Card objects are mutated in place in the source; here the deck is threaded
  explicitly and a card mutation is an id-addressed update.  The selection
  and the scheduled `setTimeout` callbacks hold card ids: in every deck the
  program builds the ids are pairwise distinct, so id-addressing agrees with
  the source's object references.
-/

namespace CardGame

/-- The `CardState` enum (`types.ts`). -/
inductive CardState where
  | FaceDown
  | FaceUp
  | Matched
deriving DecidableEq, Repr

/-- The `GameStatus` enum (`types.ts`). -/
inductive GameStatus where
  | Idle
  | Playing
  | Won
  | Lost
deriving DecidableEq, Repr

/-- The message carried by a thrown `GameError` (`types.ts`). -/
abbrev ErrMsg := String

/-- The `Card` class (`main.ts`): an `Entity` id plus a value and a visibility
state; the class initialiser defaults the state to `FaceDown`. -/
structure Card where
  id : Nat
  value : String
  state : CardState
deriving DecidableEq, Repr

/-- One iteration body of the Fisher-Yates loop:
`[a[i], a[j]] = [a[j], a[i]]`.  Out-of-range indices leave the list
unchanged; the source only ever swaps in-range indices. -/
def swapIdx {α : Type} (l : List α) (i j : Nat) : List α :=
  match l[i]?, l[j]? with
  | some x, some y => (l.set i y).set j x
  | _, _ => l

/-- The loop of `shuffle` (`main.ts`), iterating `i = n-1, …, 1`:
`shuffleGo rnd i l` still has the iterations for indices `i` down to `1` to
run.  At index `i` the draw is `j = rnd i % (i + 1) ∈ [0, i]`, the range of
`Math.floor(Math.random() * (i + 1))`. -/
def shuffleGo {α : Type} (rnd : Nat → Nat) : Nat → List α → List α
  | 0, l => l
  | i + 1, l => shuffleGo rnd i (swapIdx l (i + 1) (rnd (i + 1) % (i + 2)))

/-- Function `shuffle` (`main.ts`): copies the input (`const a = [...arr]`, purity is
implicit in the embedding) and runs the Fisher-Yates loop downward from
index `a.length - 1`. -/
def shuffle {α : Type} (rnd : Nat → Nat) (arr : List α) : List α :=
  shuffleGo rnd (arr.length - 1) arr

/-- The `Deck` class (`main.ts`): the ordered card collection.  The `Map` index is
not stored separately: it is rebuilt from `cards` after every mutation of
the collection, and since the ids of any deck the program builds are
pairwise distinct, `Map` lookup coincides with searching `cards` by id
(modelled in `Deck.get`). -/
structure Deck where
  cards : List Card
deriving DecidableEq, Repr

/-- The card construction both the `Deck` constructor and `Deck.reset` run:
`values.flatMap((v, idx) => [new Card(idx * 2, v), new Card(idx * 2 + 1, v)])`
followed by a shuffle of the concatenation. -/
def Deck.build (rnd : Nat → Nat) (values : List String) : Deck :=
  ⟨shuffle rnd (values.enum.flatMap fun p =>
    [⟨p.1 * 2, p.2, .FaceDown⟩, ⟨p.1 * 2 + 1, p.2, .FaceDown⟩])⟩

/-- Method `Deck.reset` (`main.ts`): rebuilds the cards and the index exactly as
the constructor does, discarding the previous collection. -/
def Deck.reset (_d : Deck) (rnd : Nat → Nat) (values : List String) : Deck :=
  Deck.build rnd values

/-- Method `Deck.get` (`main.ts`): id lookup through the index map; `none` models
the `throw new GameError("Card not found")`. -/
def Deck.get (d : Deck) (id : Nat) : Option Card :=
  d.cards.find? fun c => c.id = id

/-- The in-place mutation `card.state = s` of the card object with the given
id, seen through the deck. -/
def Deck.setState (d : Deck) (id : Nat) (s : CardState) : Deck :=
  ⟨d.cards.map fun c => if c.id = id then { c with state := s } else c⟩

/-- The `GameConfig` interface (`types.ts`): pair count, attempt budget, optional custom
value pool. -/
structure GameConfig where
  pairs : Nat
  maxAttempts : Int
  values : Option (List String)
deriving Repr

/-- The default value pool from the destructuring default in the `Game`
constructor (`main.ts`). -/
def defaultValues : List String := ["A", "B", "C", "D", "E", "F"]

/-- Comparator for `.sort((a, b) => a.localeCompare(b))`: a computable total
comparison of the underlying character sequences.  `localeCompare` is
locale-dependent; every property proved below only uses that sorting
permutes its input, so the exact order is irrelevant. -/
def charsLe : List Char → List Char → Bool
  | [], _ => true
  | _ :: _, [] => false
  | a :: as, b :: bs =>
    if a.val < b.val then true
    else if b.val < a.val then false
    else charsLe as bs

/-- The string order used for the sort in the `Game` constructor. -/
def strLe (a b : String) : Prop := charsLe a.data b.data = true

instance : DecidableRel strLe := fun a b =>
  inferInstanceAs (Decidable (charsLe a.data b.data = true))

/-- The `Game` class (`main.ts`).  `selected` holds the ids of the currently selected
cards (the source holds the card objects themselves); `pending` queues, in
scheduling order, the card-id pairs captured by `setTimeout` flip-back
callbacks that have not fired yet. -/
structure Game where
  status : GameStatus
  attemptsLeft : Int
  maxAttempts : Int
  pairs : Nat
  deck : Deck
  selected : List Nat
  pending : List (Nat × Nat)
deriving DecidableEq, Repr

/-- The `Game` constructor (`main.ts`): validates `pairs ≥ 1` (throwing
`"At least one pair required"` otherwise), derives the play pool as
`values.filter((_, i) => i < pairs).map(v => String(v)).sort(...)` — the
`map` is the identity on strings — and builds the deck from it.  The
initial status is `Idle` and `attemptsLeft = maxAttempts`. -/
def Game.new (rnd : Nat → Nat) (cfg : GameConfig) : Except ErrMsg Game :=
  let values := cfg.values.getD defaultValues
  if cfg.pairs < 1 then .error "At least one pair required"
  else
    let chosen := List.insertionSort strLe
      (((values.enum.filter fun p => p.1 < cfg.pairs).map fun p => p.2))
    .ok { status := .Idle, attemptsLeft := cfg.maxAttempts,
          maxAttempts := cfg.maxAttempts, pairs := cfg.pairs,
          deck := Deck.build rnd chosen, selected := [], pending := [] }

/-- Method `Game.start` (`main.ts`): enter `Playing`, restore the attempt budget,
clear the selection.  The deck (and any scheduled callback) is untouched. -/
def Game.start (g : Game) : Game :=
  { g with status := .Playing, attemptsLeft := g.maxAttempts, selected := [] }

/-- Method `Game.getCards` (`main.ts`). -/
def Game.getCards (g : Game) : List Card :=
  g.deck.cards

/-- Method `Game.evaluateTurn` (`main.ts`).  In the source this private method runs
only when the selection holds exactly two deck cards; the fallthrough arms
below (where the source's tuple destructuring would fault at runtime) are
unreachable from `flip` and leave the state unchanged. -/
def Game.evaluateTurn (g : Game) : Game :=
  match g.selected with
  | [a, b] =>
    match g.deck.get a, g.deck.get b with
    | some ca, some cb =>
      if ca.value = cb.value ∧ ca.id ≠ cb.id then
        let deck1 := (g.deck.setState a .Matched).setState b .Matched
        let remaining := deck1.cards.filter fun c => c.state ≠ .Matched
        let status1 := if remaining.length = 0 then GameStatus.Won else g.status
        { g with deck := deck1, status := status1, selected := [] }
      else
        let attempts1 := g.attemptsLeft - 1
        let status1 := if attempts1 ≤ 0 then GameStatus.Lost else g.status
        { g with attemptsLeft := attempts1, status := status1,
                 selected := [], pending := g.pending ++ [(a, b)] }
    | _, _ => g
  | _ => g

/-- Method `Game.flip` (`main.ts`).  The returned card is the card object looked up
at the start, read after any synchronous turn evaluation mutated it; its id
is still present in the deck, so the `getD` fallback is never taken. -/
def Game.flip (g : Game) (id : Nat) : Except ErrMsg (Game × Card) :=
  if g.status ≠ .Playing then .error "Game not in PLAYING state"
  else
    match g.deck.get id with
    | none => .error "Card not found"
    | some card =>
      if card.state = .Matched then .error "Card already matched"
      else if g.selected.contains id then .ok (g, card)
      else
        let g1 : Game := { g with deck := g.deck.setState id .FaceUp,
                                  selected := g.selected ++ [id] }
        let g2 := if g1.selected.length = 2 then g1.evaluateTurn else g1
        .ok (g2, (g2.deck.get id).getD card)

/-- Method `Game.reset` (`main.ts`): use the supplied pool only when it has at
least `pairs` entries (`values && values.length >= this.pairs`; an empty
array is truthy but fails the length test), otherwise derive the pool from
the first `pairs` cards of the current deck; rebuild the deck and `start`.
A deck rebuild orphans the card objects captured by scheduled flip-back
callbacks — firing them no longer affects the live deck — so the model
drops `pending` here. -/
def Game.reset (rnd : Nat → Nat) (g : Game) (values : Option (List String)) : Game :=
  let pool : Option (List String) :=
    match values with
    | some vs => if g.pairs ≤ vs.length then some vs else none
    | none => none
  let finalValues := pool.getD ((g.getCards.take g.pairs).map fun c => c.value)
  Game.start { g with deck := g.deck.reset rnd finalValues, pending := [] }

/-- Firing the oldest scheduled `setTimeout` callback from a mismatched
turn: `first.state = FaceDown; second.state = FaceDown` (`main.ts`). -/
def Game.runPending (g : Game) : Game :=
  match g.pending with
  | [] => g
  | (a, b) :: rest =>
    { g with deck := (g.deck.setState a .FaceDown).setState b .FaceDown,
             pending := rest }

/-! ### Concrete sample states used by the witnesses -/

/-- A two-pair game with one card of the first pair selected, used to
witness a matching second flip. -/
def sampleFirstFlipped : Game :=
  { status := .Playing, attemptsLeft := 3, maxAttempts := 3, pairs := 2,
    deck := ⟨[⟨0, "A", .FaceUp⟩, ⟨1, "A", .FaceDown⟩,
              ⟨2, "B", .FaceDown⟩, ⟨3, "B", .FaceDown⟩]⟩,
    selected := [0], pending := [] }

/-- A one-pair game about to resolve a matching turn (both cards of the
pair flipped and selected). -/
def sampleMatchTurn : Game :=
  { status := .Playing, attemptsLeft := 3, maxAttempts := 3, pairs := 1,
    deck := ⟨[⟨0, "A", .FaceUp⟩, ⟨1, "A", .FaceUp⟩]⟩,
    selected := [0, 1], pending := [] }

/-- A two-pair game on its last attempt, about to resolve a mismatched
turn. -/
def sampleMismatchTurn : Game :=
  { status := .Playing, attemptsLeft := 1, maxAttempts := 1, pairs := 2,
    deck := ⟨[⟨0, "A", .FaceUp⟩, ⟨1, "A", .FaceDown⟩,
              ⟨2, "B", .FaceUp⟩, ⟨3, "B", .FaceDown⟩]⟩,
    selected := [0, 2], pending := [] }

/-- A game inside the flip-back delay window: the previous turn mismatched
(cards 0 and 2 are still `FaceUp`, the callback for them is pending) and
the selection is already cleared. -/
def sampleDelayWindow : Game :=
  { status := .Playing, attemptsLeft := 2, maxAttempts := 3, pairs := 2,
    deck := ⟨[⟨0, "A", .FaceUp⟩, ⟨1, "A", .FaceDown⟩,
              ⟨2, "B", .FaceUp⟩, ⟨3, "B", .FaceDown⟩]⟩,
    selected := [], pending := [(0, 2)] }

/-! ### The Fisher-Yates loop permutes its input -/

theorem get_cons_set_perm {α : Type} (t : List α) (k : Nat) (a : α) (h : k < t.length) :
    (t[k] :: t.set k a).Perm (a :: t) := by
  induction t generalizing k with
  | nil => simp at h
  | cons b t ih =>
    cases k with
    | zero => simpa using List.Perm.swap a b t
    | succ k =>
      have h' : k < t.length := Nat.lt_of_succ_lt_succ h
      have s1 : (t[k] :: b :: t.set k a).Perm (b :: t[k] :: t.set k a) :=
        List.Perm.swap b (t.get ⟨k, h'⟩) (t.set k a)
      have s2 : (b :: t[k] :: t.set k a).Perm (b :: a :: t) := (ih k h').cons b
      have s3 : (b :: a :: t).Perm (a :: b :: t) := List.Perm.swap a b t
      simpa using (s1.trans s2).trans s3

theorem set_set_get_perm {α : Type} :
    ∀ (l : List α) (i j : Nat) (hi : i < l.length) (hj : j < l.length),
    ((l.set i l[j]).set j l[i]).Perm l := by
  intro l
  induction l with
  | nil => intro i j hi _; simp at hi
  | cons a t ih =>
    intro i j hi hj
    match i, j with
    | 0, 0 => simp
    | 0, k + 1 =>
      have hk : k < t.length := Nat.lt_of_succ_lt_succ hj
      simpa using get_cons_set_perm t k a hk
    | m + 1, 0 =>
      have hm : m < t.length := Nat.lt_of_succ_lt_succ hi
      simpa using get_cons_set_perm t m a hm
    | m + 1, k + 1 =>
      have hm : m < t.length := Nat.lt_of_succ_lt_succ hi
      have hk : k < t.length := Nat.lt_of_succ_lt_succ hj
      simpa using (ih m k hm hk).cons a

theorem swapIdx_perm {α : Type} (l : List α) (i j : Nat) : (swapIdx l i j).Perm l := by
  unfold swapIdx
  split
  next x y hx hy =>
    obtain ⟨hi, hxe⟩ := List.getElem?_eq_some_iff.mp hx
    obtain ⟨hj, hye⟩ := List.getElem?_eq_some_iff.mp hy
    rw [← hxe, ← hye]
    exact set_set_get_perm l i j hi hj
  next => exact List.Perm.refl l

theorem shuffleGo_perm {α : Type} (rnd : Nat → Nat) :
    ∀ (i : Nat) (l : List α), (shuffleGo rnd i l).Perm l := by
  intro i
  induction i with
  | zero => intro l; exact List.Perm.refl l
  | succ i ih =>
    intro l
    exact (ih _).trans (swapIdx_perm l (i + 1) (rnd (i + 1) % (i + 2)))

theorem shuffle_perm {α : Type} (rnd : Nat → Nat) (l : List α) :
    (shuffle rnd l).Perm l :=
  shuffleGo_perm rnd (l.length - 1) l

/-! ### `filter((_, i) => i < n)` keeps exactly the first `n` entries -/

theorem enumFrom_filter_lt_eq_nil {α : Type} (k : Nat) :
    ∀ (m : Nat) (l : List α), k ≤ m →
    ((List.enumFrom m l).filter fun p => decide (p.1 < k)) = [] := by
  intro m l
  induction l generalizing m with
  | nil => intro _; rfl
  | cons a t ih =>
    intro h
    have hmk : ¬ (m < k) := by omega
    simp only [List.enumFrom, List.filter_cons]
    simp [hmk, ih (m + 1) (by omega)]

theorem enumFrom_filter_lt_map {α : Type} (l : List α) :
    ∀ (k n : Nat),
    (((List.enumFrom k l).filter fun p => decide (p.1 < k + n)).map fun p => p.2)
      = l.take n := by
  induction l with
  | nil => intro k n; simp
  | cons a t ih =>
    intro k n
    cases n with
    | zero =>
      rw [Nat.add_zero, enumFrom_filter_lt_eq_nil k k (a :: t) (Nat.le_refl k)]
      rfl
    | succ n =>
      have e : k + (n + 1) = (k + 1) + n := by omega
      rw [e]
      simp only [List.enumFrom, List.filter_cons, decide_eq_true_eq]
      rw [if_pos (by omega)]
      simp [ih (k + 1) n]

theorem enum_filter_lt_map {α : Type} (l : List α) (n : Nat) :
    ((l.enum.filter fun p => decide (p.1 < n)).map fun p => p.2) = l.take n := by
  simpa using enumFrom_filter_lt_map l 0 n

/-! ### Structure of the card list built from a value pool -/

theorem flatMap_pair_length {α : Type} (l : List α) :
    (l.flatMap fun v => [v, v]).length = 2 * l.length := by
  induction l with
  | nil => rfl
  | cons a t ih => simp [ih]; omega

theorem flatMap_pair_count {α : Type} [DecidableEq α] (v : α) (l : List α) :
    (l.flatMap fun x => [x, x]).count v = 2 * l.count v := by
  induction l with
  | nil => rfl
  | cons a t ih =>
    by_cases h : a = v
    · simp [List.count_cons, h, ih]; omega
    · simp [List.count_cons, h, ih]

theorem flatMap_pair_toFinset {α : Type} [DecidableEq α] (l : List α) :
    (l.flatMap fun x => [x, x]).toFinset = l.toFinset := by
  induction l with
  | nil => rfl
  | cons a t ih => simp [ih]

theorem flatMap_pair_mem {α : Type} (v : α) (l : List α) :
    v ∈ (l.flatMap fun x => [x, x]) ↔ v ∈ l := by
  simp

theorem enumFrom_flatMap_value (l : List String) :
    ∀ k : Nat,
    (((List.enumFrom k l).flatMap fun p =>
        [(⟨p.1 * 2, p.2, .FaceDown⟩ : Card), ⟨p.1 * 2 + 1, p.2, .FaceDown⟩]).map
      fun c => c.value) = l.flatMap fun v => [v, v] := by
  induction l with
  | nil => intro _; rfl
  | cons a t ih => intro k; simp [List.enumFrom, ih (k + 1)]

theorem enumFrom_flatMap_state (l : List String) :
    ∀ (k : Nat) (c : Card),
    c ∈ ((List.enumFrom k l).flatMap fun p =>
        [(⟨p.1 * 2, p.2, .FaceDown⟩ : Card), ⟨p.1 * 2 + 1, p.2, .FaceDown⟩]) →
    c.state = CardState.FaceDown := by
  intro k c hc
  rw [List.mem_flatMap] at hc
  obtain ⟨p, _, hcp⟩ := hc
  simp only [List.mem_cons, List.not_mem_nil, or_false] at hcp
  rcases hcp with h | h <;> rw [h]

theorem build_cards_perm (rnd : Nat → Nat) (values : List String) :
    (Deck.build rnd values).cards.Perm (values.enum.flatMap fun p =>
      [⟨p.1 * 2, p.2, .FaceDown⟩, ⟨p.1 * 2 + 1, p.2, .FaceDown⟩]) :=
  shuffle_perm rnd _

theorem build_length (rnd : Nat → Nat) (values : List String) :
    (Deck.build rnd values).cards.length = 2 * values.length := by
  rw [(build_cards_perm rnd values).length_eq]
  rw [show values.enum = List.enumFrom 0 values from rfl]
  rw [← flatMap_pair_length values, ← enumFrom_flatMap_value values 0]
  simp

theorem build_value_perm (rnd : Nat → Nat) (values : List String) :
    ((Deck.build rnd values).cards.map fun c => c.value).Perm
      (values.flatMap fun v => [v, v]) := by
  have h := (build_cards_perm rnd values).map fun c => c.value
  rw [show values.enum = List.enumFrom 0 values from rfl,
    enumFrom_flatMap_value values 0] at h
  exact h

theorem build_value_count (rnd : Nat → Nat) (values : List String) (v : String) :
    ((Deck.build rnd values).cards.map fun c => c.value).count v
      = 2 * values.count v := by
  rw [(build_value_perm rnd values).count_eq, flatMap_pair_count]

theorem build_value_toFinset (rnd : Nat → Nat) (values : List String) :
    ((Deck.build rnd values).cards.map fun c => c.value).toFinset
      = values.toFinset := by
  rw [List.toFinset_eq_of_perm _ _ (build_value_perm rnd values),
    flatMap_pair_toFinset]

theorem build_states (rnd : Nat → Nat) (values : List String) :
    ∀ c ∈ (Deck.build rnd values).cards, c.state = CardState.FaceDown := by
  intro c hc
  have hmem := (build_cards_perm rnd values).mem_iff.mp hc
  exact enumFrom_flatMap_state values 0 c hmem

/-! ### Id lookup through state updates -/

theorem get_eq_id {d : Deck} {id : Nat} {c : Card} (h : d.get id = some c) :
    c.id = id := by
  have := List.find?_some h
  simpa using this

theorem get_mem {d : Deck} {id : Nat} {c : Card} (h : d.get id = some c) :
    c ∈ d.cards :=
  List.mem_of_find?_eq_some h

theorem get_setState (d : Deck) (id id' : Nat) (s : CardState) :
    (d.setState id s).get id' =
      (d.get id').map fun c => if c.id = id then { c with state := s } else c := by
  show (d.cards.map _).find? _ = _
  have hf : ((fun c : Card => decide (c.id = id')) ∘
      fun c => if c.id = id then { c with state := s } else c)
      = fun c : Card => decide (c.id = id') := by
    funext c
    by_cases h : c.id = id <;> simp [h]
  rw [List.find?_map, hf]
  rfl

theorem get_setState_ne (d : Deck) {id id' : Nat} (s : CardState) (h : id' ≠ id) :
    (d.setState id s).get id' = d.get id' := by
  rw [get_setState]
  cases hg : d.get id' with
  | none => rfl
  | some c =>
    have hc := get_eq_id hg
    simp [hc, h]

theorem get_setState_self (d : Deck) {id : Nat} (s : CardState) {c : Card}
    (h : d.get id = some c) :
    (d.setState id s).get id = some { c with state := s } := by
  rw [get_setState, h]
  simp [get_eq_id h]

/-! ### Unfolding helpers for `flip` and `evaluateTurn` -/

theorem flip_proceed (g : Game) (id : Nat) (c : Card)
    (hst : g.status = .Playing) (hget : g.deck.get id = some c)
    (hc : c.state ≠ .Matched) (hns : id ∉ g.selected) :
    g.flip id =
      (let g1 : Game := { g with deck := g.deck.setState id .FaceUp,
                                 selected := g.selected ++ [id] };
       let g2 := if g1.selected.length = 2 then g1.evaluateTurn else g1;
       Except.ok (g2, (g2.deck.get id).getD c)) := by
  unfold Game.flip
  simp [hst, hget, hc, hns]

theorem evaluateTurn_match_eq (g : Game) (a b : Nat) (ca cb : Card)
    (hsel : g.selected = [a, b]) (hab : a ≠ b)
    (hga : g.deck.get a = some ca) (hgb : g.deck.get b = some cb)
    (hv : ca.value = cb.value) :
    g.evaluateTurn =
      { g with deck := (g.deck.setState a .Matched).setState b .Matched,
               status := if (((g.deck.setState a .Matched).setState b .Matched).cards.filter
                   fun c => c.state ≠ .Matched).length = 0 then .Won else g.status,
               selected := [] } := by
  unfold Game.evaluateTurn
  rw [hsel]
  simp only [hga, hgb]
  rw [if_pos ⟨hv, by rw [get_eq_id hga, get_eq_id hgb]; exact hab⟩]

theorem evaluateTurn_mismatch_eq (g : Game) (a b : Nat) (ca cb : Card)
    (hsel : g.selected = [a, b])
    (hga : g.deck.get a = some ca) (hgb : g.deck.get b = some cb)
    (hv : ca.value ≠ cb.value) :
    g.evaluateTurn =
      { g with attemptsLeft := g.attemptsLeft - 1,
               status := if g.attemptsLeft - 1 ≤ 0 then .Lost else g.status,
               selected := [], pending := g.pending ++ [(a, b)] } := by
  unfold Game.evaluateTurn
  rw [hsel]
  simp only [hga, hgb]
  rw [if_neg fun hh => hv hh.1]

theorem runPending_cons (g : Game) (a b : Nat) (rest : List (Nat × Nat))
    (h : g.pending = (a, b) :: rest) :
    g.runPending =
      { g with deck := (g.deck.setState a .FaceDown).setState b .FaceDown,
               pending := rest } := by
  unfold Game.runPending
  rw [h]

theorem flip_second_eq (g : Game) (a id : Nat) (c : Card)
    (hst : g.status = .Playing) (hget : g.deck.get id = some c)
    (hc : c.state ≠ .Matched) (hsel : g.selected = [a]) (hna : id ≠ a) :
    g.flip id =
      (let g1 : Game := { g with deck := g.deck.setState id .FaceUp,
                                 selected := [a, id] };
       Except.ok (g1.evaluateTurn, (g1.evaluateTurn.deck.get id).getD c)) := by
  unfold Game.flip
  simp [hst, hget, hc, hsel, hna]

/-! ### Claim theorems -/

/-- C9: `shuffle` returns a permutation of its input (the same elements as
multisets) — the input itself is untouched, the embedding being pure just as
the source copies the array before swapping — and on inputs of length 0
and 1 the result equals the input. -/
theorem shuffle_is_permutation {α : Type} (rnd : Nat → Nat) (l : List α) :
    (shuffle rnd l).Perm l ∧ shuffle rnd ([] : List α) = [] ∧
      ∀ x : α, shuffle rnd [x] = [x] :=
  ⟨shuffle_perm rnd l, rfl, fun _ => rfl⟩

/-- C8 counterexample: the `Deck` constructor contains no emptiness check;
called with an empty value list it does not fail and creates an empty
deck. -/
theorem deck_build_empty_counterexample :
    (Deck.build (fun _ => 0) []).cards = [] := rfl

/-- C8 amended: `Deck` construction never fails — with an empty value list
it succeeds and the resulting deck is empty (the only construction-time
validation in the program is the `pairs ≥ 1` check of the `Game`
constructor, which does not inspect the value list). -/
theorem deck_build_empty_no_error (rnd : Nat → Nat) :
    (Deck.build rnd []).cards = [] := rfl

/-- C5: `flip` fails with the documented `GameError` message in each guard
case — status not `Playing`, unknown card id, already-matched card — and in
each case the call returns before any mutation, so the game state is
unchanged (the embedding threads the state explicitly: an `error` result
carries no successor state). -/
theorem flip_error_cases (g : Game) (id : Nat) :
    (g.status ≠ .Playing → g.flip id = .error "Game not in PLAYING state") ∧
    (g.status = .Playing → g.deck.get id = none →
      g.flip id = .error "Card not found") ∧
    (∀ c, g.status = .Playing → g.deck.get id = some c →
      c.state = .Matched → g.flip id = .error "Card already matched") := by
  refine ⟨fun h => ?_, fun h hn => ?_, fun c h hs hm => ?_⟩
  · unfold Game.flip
    simp [h]
  · unfold Game.flip
    simp [h, hn]
  · unfold Game.flip
    simp [h, hs, hm]

/-- Witness for C5: the three failures observed at concrete games. -/
theorem flip_error_cases_witness :
    Game.flip { status := .Won, attemptsLeft := 3, maxAttempts := 3, pairs := 1,
                deck := ⟨[⟨0, "A", .FaceDown⟩, ⟨1, "A", .FaceDown⟩]⟩,
                selected := [], pending := [] } 0
        = .error "Game not in PLAYING state" ∧
    Game.flip { status := .Playing, attemptsLeft := 3, maxAttempts := 3, pairs := 1,
                deck := ⟨[⟨0, "A", .FaceDown⟩, ⟨1, "A", .FaceDown⟩]⟩,
                selected := [], pending := [] } 5
        = .error "Card not found" ∧
    Game.flip { status := .Playing, attemptsLeft := 3, maxAttempts := 3, pairs := 1,
                deck := ⟨[⟨0, "A", .Matched⟩, ⟨1, "A", .FaceDown⟩]⟩,
                selected := [], pending := [] } 0
        = .error "Card already matched" :=
  ⟨(flip_error_cases _ 0).1 (by decide),
   (flip_error_cases _ 5).2.1 rfl (by decide),
   (flip_error_cases _ 0).2.2 ⟨0, "A", .Matched⟩ rfl (by decide) rfl⟩

/-- C6: flipping a card that is already in the current (not yet evaluated)
selection is a no-op — the call returns the card unchanged and the whole
game state, the selection included, is exactly as before; in particular no
turn evaluation is triggered. -/
theorem flip_selected_noop (g : Game) (id : Nat) (c : Card)
    (hst : g.status = .Playing) (hget : g.deck.get id = some c)
    (hc : c.state ≠ .Matched) (hmem : id ∈ g.selected) :
    g.flip id = .ok (g, c) := by
  unfold Game.flip
  simp [hst, hget, hc, hmem]

/-- Witness for C6 at a concrete mid-turn game. -/
theorem flip_selected_noop_witness :
    Game.flip { status := .Playing, attemptsLeft := 3, maxAttempts := 3, pairs := 1,
                deck := ⟨[⟨0, "A", .FaceUp⟩, ⟨1, "A", .FaceDown⟩]⟩,
                selected := [0], pending := [] } 0
      = .ok ({ status := .Playing, attemptsLeft := 3, maxAttempts := 3, pairs := 1,
               deck := ⟨[⟨0, "A", .FaceUp⟩, ⟨1, "A", .FaceDown⟩]⟩,
               selected := [0], pending := [] }, ⟨0, "A", .FaceUp⟩) :=
  flip_selected_noop _ 0 _ rfl (by decide) (by decide) (by decide)

/-- C2: flipping a second, distinct card in a turn: if the two selected
cards hold equal values, both become `Matched` and `attemptsLeft` is
unchanged; if the values differ, `attemptsLeft` drops by exactly 1 and,
once the deferred `setTimeout` callback fires (`runPending`), both cards
are `FaceDown` again. -/
theorem flip_second_card (g : Game) (a b : Nat) (ca cb : Card)
    (hst : g.status = .Playing) (hsel : g.selected = [a])
    (hpend : g.pending = [])
    (hga : g.deck.get a = some ca) (hgb : g.deck.get b = some cb)
    (hcb : cb.state ≠ .Matched) (hab : a ≠ b) :
    ∃ gr cr, g.flip b = .ok (gr, cr) ∧
      (ca.value = cb.value →
        (gr.deck.get a).map Card.state = some .Matched ∧
        (gr.deck.get b).map Card.state = some .Matched ∧
        gr.attemptsLeft = g.attemptsLeft) ∧
      (ca.value ≠ cb.value →
        gr.attemptsLeft = g.attemptsLeft - 1 ∧
        (gr.runPending.deck.get a).map Card.state = some .FaceDown ∧
        (gr.runPending.deck.get b).map Card.state = some .FaceDown) := by
  have hga1 : (g.deck.setState b .FaceUp).get a = some ca := by
    rw [get_setState_ne _ _ hab]
    exact hga
  have hgb1 : (g.deck.setState b .FaceUp).get b = some { cb with state := .FaceUp } :=
    get_setState_self _ _ hgb
  refine ⟨Game.evaluateTurn { g with deck := g.deck.setState b .FaceUp,
                                     selected := [a, b] },
    ((Game.evaluateTurn { g with deck := g.deck.setState b .FaceUp,
                                 selected := [a, b] }).deck.get b).getD cb,
    flip_second_eq g a b cb hst hgb hcb hsel (Ne.symm hab), ?_, ?_⟩
  · intro hv
    rw [evaluateTurn_match_eq _ a b ca { cb with state := .FaceUp } rfl hab hga1 hgb1
      (by simpa using hv)]
    refine ⟨?_, ?_, rfl⟩
    · show ((((g.deck.setState b .FaceUp).setState a .Matched).setState b
        .Matched).get a).map Card.state = some .Matched
      rw [get_setState_ne _ _ hab, get_setState_self _ _ hga1]
      rfl
    · have hmid : ((g.deck.setState b .FaceUp).setState a .Matched).get b
          = some { cb with state := .FaceUp } := by
        rw [get_setState_ne _ _ (Ne.symm hab)]
        exact hgb1
      show ((((g.deck.setState b .FaceUp).setState a .Matched).setState b
        .Matched).get b).map Card.state = some .Matched
      rw [get_setState_self _ _ hmid]
      rfl
  · intro hv
    rw [evaluateTurn_mismatch_eq _ a b ca { cb with state := .FaceUp } rfl hga1 hgb1
      (by simpa using hv)]
    refine ⟨rfl, ?_, ?_⟩
    · rw [runPending_cons _ a b [] (by simp [hpend])]
      show ((((g.deck.setState b .FaceUp).setState a .FaceDown).setState b
        .FaceDown).get a).map Card.state = some .FaceDown
      rw [get_setState_ne _ _ hab, get_setState_self _ _ hga1]
      rfl
    · rw [runPending_cons _ a b [] (by simp [hpend])]
      have hmid : ((g.deck.setState b .FaceUp).setState a .FaceDown).get b
          = some { cb with state := .FaceUp } := by
        rw [get_setState_ne _ _ (Ne.symm hab)]
        exact hgb1
      show ((((g.deck.setState b .FaceUp).setState a .FaceDown).setState b
        .FaceDown).get b).map Card.state = some .FaceDown
      rw [get_setState_self _ _ hmid]
      rfl


/-- Witness for C2: flipping the partner card of the selected card in
`sampleFirstFlipped`. -/
theorem flip_second_card_witness :
    ∃ gr cr, sampleFirstFlipped.flip 1 = .ok (gr, cr) ∧
      ((⟨0, "A", .FaceUp⟩ : Card).value = (⟨1, "A", .FaceDown⟩ : Card).value →
        (gr.deck.get 0).map Card.state = some .Matched ∧
        (gr.deck.get 1).map Card.state = some .Matched ∧
        gr.attemptsLeft = sampleFirstFlipped.attemptsLeft) ∧
      ((⟨0, "A", .FaceUp⟩ : Card).value ≠ (⟨1, "A", .FaceDown⟩ : Card).value →
        gr.attemptsLeft = sampleFirstFlipped.attemptsLeft - 1 ∧
        (gr.runPending.deck.get 0).map Card.state = some .FaceDown ∧
        (gr.runPending.deck.get 1).map Card.state = some .FaceDown) :=
  flip_second_card sampleFirstFlipped 0 1 ⟨0, "A", .FaceUp⟩ ⟨1, "A", .FaceDown⟩
    rfl rfl rfl (by decide) (by decide) (by decide) (by decide)

/-- C3: for a turn evaluation — which the source triggers exactly when the
selection holds two deck cards, neither of them already matched — the status
is `Won` afterwards iff every card of the deck is `Matched` immediately
after the turn resolves. -/
theorem evaluateTurn_won_iff (g : Game) (a b : Nat) (ca cb : Card)
    (hst : g.status = .Playing) (hsel : g.selected = [a, b])
    (hga : g.deck.get a = some ca) (hgb : g.deck.get b = some cb)
    (hca : ca.state ≠ .Matched) :
    (g.evaluateTurn.status = .Won ↔
      ∀ c ∈ g.evaluateTurn.deck.cards, c.state = .Matched) := by
  unfold Game.evaluateTurn
  rw [hsel]
  simp only [hga, hgb]
  by_cases hv : ca.value = cb.value ∧ ca.id ≠ cb.id
  · rw [if_pos hv]
    simp only
    split
    next hall =>
      rw [List.length_eq_zero] at hall
      have hmatched := List.filter_eq_nil_iff.mp hall
      simp at hmatched
      exact iff_of_true rfl hmatched
    next hall =>
      apply iff_of_false
      · rw [hst]
        simp
      · intro hAll
        apply hall
        rw [List.length_eq_zero, List.filter_eq_nil_iff]
        intro c hcmem
        simp [hAll c hcmem]
  · rw [if_neg hv]
    apply iff_of_false
    · simp only
      split
      · simp
      · rw [hst]
        simp
    · intro hAll
      exact hca (hAll ca (get_mem hga))


/-- Witness for C3: the matching turn of `sampleMatchTurn` evaluates to
`Won` with every card matched. -/
theorem evaluateTurn_won_iff_witness :
    sampleMatchTurn.evaluateTurn.status = .Won ↔
      ∀ c ∈ sampleMatchTurn.evaluateTurn.deck.cards, c.state = .Matched :=
  evaluateTurn_won_iff _ 0 1 ⟨0, "A", .FaceUp⟩ ⟨1, "A", .FaceUp⟩
    rfl rfl (by decide) (by decide) (by decide)

/-- C4: for a turn evaluation over two distinct selected deck cards, the
status is `Lost` afterwards iff the turn was a mismatch and the decremented
attempt budget is `≤ 0` — covering the degenerate `maxAttempts = 0` run in
which the first mismatch drives `attemptsLeft` to `-1`. -/
theorem evaluateTurn_lost_iff (g : Game) (a b : Nat) (ca cb : Card)
    (hst : g.status = .Playing) (hsel : g.selected = [a, b]) (hab : a ≠ b)
    (hga : g.deck.get a = some ca) (hgb : g.deck.get b = some cb) :
    (g.evaluateTurn.status = .Lost ↔
      (ca.value ≠ cb.value ∧ g.evaluateTurn.attemptsLeft ≤ 0)) := by
  unfold Game.evaluateTurn
  rw [hsel]
  simp only [hga, hgb]
  have hid : ca.id ≠ cb.id := by
    rw [get_eq_id hga, get_eq_id hgb]
    exact hab
  by_cases hv : ca.value = cb.value
  · rw [if_pos ⟨hv, hid⟩]
    apply iff_of_false
    · simp only
      split
      · simp
      · rw [hst]
        simp
    · rintro ⟨hne, _⟩
      exact hne hv
  · rw [if_neg fun hh => hv hh.1]
    simp only
    by_cases hle : g.attemptsLeft - 1 ≤ 0
    · rw [if_pos hle]
      exact iff_of_true rfl ⟨hv, hle⟩
    · rw [if_neg hle]
      apply iff_of_false
      · rw [hst]
        simp
      · rintro ⟨_, hc⟩
        exact hle hc


/-- Witness for C4: the mismatched turn of `sampleMismatchTurn` exhausts the
budget and evaluates to `Lost`. -/
theorem evaluateTurn_lost_iff_witness :
    sampleMismatchTurn.evaluateTurn.status = .Lost ↔
      ((⟨0, "A", .FaceUp⟩ : Card).value ≠ (⟨2, "B", .FaceUp⟩ : Card).value ∧
        sampleMismatchTurn.evaluateTurn.attemptsLeft ≤ 0) :=
  evaluateTurn_lost_iff _ 0 2 ⟨0, "A", .FaceUp⟩ ⟨2, "B", .FaceUp⟩
    rfl rfl (by decide) (by decide) (by decide)

/-- C10 (implicit): while the status is `Playing`, `flip` on a card whose
state is `FaceUp` but which is not in the current selection — e.g. a
mismatched card re-clicked during the flip-back delay window, after the
selection was already cleared — is not rejected or ignored by the core:
the card is (re)set `FaceUp`, appended to the selection, and turn
evaluation runs exactly when this makes the selection hold two cards. -/
theorem flip_faceup_reclick (g : Game) (id : Nat) (c : Card)
    (hst : g.status = .Playing) (hget : g.deck.get id = some c)
    (hc : c.state = .FaceUp) (hns : id ∉ g.selected) :
    g.flip id =
      (let g1 : Game := { g with deck := g.deck.setState id .FaceUp,
                                 selected := g.selected ++ [id] };
       let g2 := if g1.selected.length = 2 then g1.evaluateTurn else g1;
       Except.ok (g2, (g2.deck.get id).getD c)) :=
  flip_proceed g id c hst hget (by simp [hc]) hns


/-- Witness for C10: re-clicking the revealed card 0 of `sampleDelayWindow`
succeeds and re-selects it. -/
theorem flip_faceup_reclick_witness :
    sampleDelayWindow.flip 0 =
      (let g1 : Game := { sampleDelayWindow with
                            deck := sampleDelayWindow.deck.setState 0 .FaceUp,
                            selected := sampleDelayWindow.selected ++ [0] };
       let g2 := if g1.selected.length = 2 then g1.evaluateTurn else g1;
       Except.ok (g2, (g2.deck.get 0).getD ⟨0, "A", .FaceUp⟩)) :=
  flip_faceup_reclick sampleDelayWindow 0 ⟨0, "A", .FaceUp⟩ rfl (by decide)
    rfl (by decide)

/-- C1 counterexample: with `pairs = 2` and a supplied one-entry value
list, the constructor accepts the configuration but builds a deck of 2
cards instead of `2 × pairs = 4` — `filter((_, i) => i < pairs)` cannot pad
a short list. -/
theorem game_new_short_values_counterexample :
    (Game.new (fun _ => 0) ⟨2, 1, some ["A"]⟩).toOption.map
      (fun g => g.deck.cards.length) = some 2 ∧ (2 : Nat) ≠ 2 * 2 := by
  decide

/-- C1 amended: for an accepted configuration (`pairs ≥ 1`) whose value
list (supplied, or the 6-symbol default) has at least `pairs` entries, the
first `pairs` of them pairwise distinct — true in particular for every
default-pool configuration with `pairs ≤ 6` — the deck holds exactly
`2 × pairs` cards over exactly `pairs` distinct values, each value on
exactly two cards.  (A shorter list yields a proportionally smaller deck
and duplicate entries collapse the distinct-value count, as the
counterexample shows.) -/
theorem game_new_deck_shape (rnd : Nat → Nat) (cfg : GameConfig)
    (h1 : 1 ≤ cfg.pairs)
    (h2 : cfg.pairs ≤ (cfg.values.getD defaultValues).length)
    (h3 : ((cfg.values.getD defaultValues).take cfg.pairs).Nodup) :
    ∃ g, Game.new rnd cfg = .ok g ∧
      g.deck.cards.length = 2 * cfg.pairs ∧
      (g.deck.cards.map fun c => c.value).toFinset.card = cfg.pairs ∧
      ∀ v ∈ g.deck.cards.map fun c => c.value,
        (g.deck.cards.map fun c => c.value).count v = 2 := by
  have hnew : Game.new rnd cfg =
      .ok { status := .Idle, attemptsLeft := cfg.maxAttempts,
            maxAttempts := cfg.maxAttempts, pairs := cfg.pairs,
            deck := Deck.build rnd (List.insertionSort strLe
              (((cfg.values.getD defaultValues).enum.filter
                  fun p => p.1 < cfg.pairs).map fun p => p.2)),
            selected := [], pending := [] } := by
    unfold Game.new
    rw [if_neg (by omega)]
  have hperm : (List.insertionSort strLe
      (((cfg.values.getD defaultValues).enum.filter
        fun p => p.1 < cfg.pairs).map fun p => p.2)).Perm
      ((cfg.values.getD defaultValues).take cfg.pairs) := by
    have h := List.perm_insertionSort strLe
      (((cfg.values.getD defaultValues).enum.filter
        fun p => p.1 < cfg.pairs).map fun p => p.2)
    nth_rewrite 2 [enum_filter_lt_map] at h
    exact h
  have hlen : (List.insertionSort strLe
      (((cfg.values.getD defaultValues).enum.filter
        fun p => p.1 < cfg.pairs).map fun p => p.2)).length = cfg.pairs := by
    rw [hperm.length_eq, List.length_take, Nat.min_eq_left h2]
  have hnd : (List.insertionSort strLe
      (((cfg.values.getD defaultValues).enum.filter
        fun p => p.1 < cfg.pairs).map fun p => p.2)).Nodup :=
    hperm.nodup_iff.mpr h3
  refine ⟨_, hnew, ?_, ?_, ?_⟩
  · dsimp only
    rw [build_length, hlen]
  · dsimp only
    rw [build_value_toFinset, List.card_toFinset, hnd.dedup, hlen]
  · intro v hv
    dsimp only at hv ⊢
    rw [build_value_count]
    have hvc : v ∈ List.insertionSort strLe
        (((cfg.values.getD defaultValues).enum.filter
          fun p => p.1 < cfg.pairs).map fun p => p.2) := by
      have hmem := (build_value_perm rnd _).mem_iff.mp hv
      exact (flatMap_pair_mem v _).mp hmem
    rw [List.count_eq_one_of_mem hnd hvc]

/-- Witness for C1 (amended) at a concrete two-pair configuration. -/
theorem game_new_deck_shape_witness :
    ∃ g, Game.new (fun _ => 0) ⟨2, 3, some ["B", "A"]⟩ = .ok g ∧
      g.deck.cards.length = 2 * 2 ∧
      (g.deck.cards.map fun c => c.value).toFinset.card = 2 ∧
      ∀ v ∈ g.deck.cards.map fun c => c.value,
        (g.deck.cards.map fun c => c.value).count v = 2 :=
  game_new_deck_shape (fun _ => 0) ⟨2, 3, some ["B", "A"]⟩ (by decide)
    (by decide) (by decide)

/-- C7 counterexample: a game accepted with `pairs = 3` but only one
supplied value has a 2-card deck; `reset()` then derives only
`min(pairs, 2) = 2` pool entries and rebuilds a 4-card deck, so the pool
did not have exactly `pairs = 3` entries. -/
theorem reset_short_deck_counterexample :
    (Game.new (fun _ => 0) ⟨3, 1, some ["A"]⟩).toOption.map
      (fun g => (Game.reset (fun _ => 0) g none).deck.cards.length) = some 4 ∧
      (4 : Nat) ≠ 2 * 3 := by
  decide

/-- C7 amended: for every game and every draw sequence, `reset()` with no
argument rebuilds the deck from the values of the first
`min(pairs, deck size)` cards of the current deck — so from exactly
`pairs` entries whenever the deck holds at least `pairs` cards, which is
the case for every game configured with at least `pairs` values — and
always leaves status `Playing`, `attemptsLeft = maxAttempts`, an empty
selection, and every card of the rebuilt deck `FaceDown`. -/
theorem reset_none_spec (rnd : Nat → Nat) (g : Game) :
    (g.reset rnd none).deck.cards.length = 2 * min g.pairs g.deck.cards.length ∧
      (g.reset rnd none).status = .Playing ∧
      (g.reset rnd none).attemptsLeft = g.maxAttempts ∧
      (g.reset rnd none).selected = [] ∧
      ∀ c ∈ (g.reset rnd none).deck.cards, c.state = .FaceDown := by
  unfold Game.reset Game.start Game.getCards Deck.reset
  dsimp only
  refine ⟨?_, rfl, rfl, rfl, ?_⟩
  · rw [build_length, Option.getD_none, List.length_map, List.length_take]
  · intro c hc
    exact build_states rnd _ c hc

end CardGame
